import Mathlib

set_option linter.unusedVariables false

/-!
Verification development for the PontoEletronico attendance server
(`server.py`): a shallow embedding of its timestamp handling, the
attendance ledger with its two storage backends (flat CSV log and SQL
database), the per-identity confirmation/cooldown gate
(`_handle_attendance_candidate` / `_log_attendance`), and the CLT
time-balance reports. Instants are modelled as integer epoch seconds and
clock times as minutes of the day.
-/

/-- Outcome of storing one timestamp string in the ledger: either a string
that `datetime.fromisoformat` parses to the instant `t`, or a malformed
string. The `tag` of a malformed string stands for its raw text and only
serves to order malformed strings among themselves. -/
inductive TsVal where
  | ok (t : Int)
  | bad (tag : Int)
deriving DecidableEq, Repr

/-- Embeds `_parse_timestamp` (server.py:582-600): a well-formed ISO string
parses to its instant; on a parse error the function logs and returns the
current time (`datetime.now(timezone.utc).timestamp()`), passed in here as
`fallbackNow`. -/
def parseTimestamp (fallbackNow : Int) : TsVal → Int
  | .ok t => t
  | .bad _ => fallbackNow

/-- One row of the attendance ledger, `{'name': ..., 'timestamp': ...}`. -/
structure AttRecord where
  name : String
  ts : TsVal
deriving DecidableEq, Repr

/-- Sort order used by `_load_attendance_history` (server.py:540) and
`_log_attendance` (server.py:838): ascending by `_parse_timestamp` of the
stored string, with `fallbackNow` substituted for malformed strings. -/
def ascRecLE (fallbackNow : Int) (a b : AttRecord) : Prop :=
  parseTimestamp fallbackNow a.ts ≤ parseTimestamp fallbackNow b.ts

instance (f : Int) : DecidableRel (ascRecLE f) :=
  fun a b => Int.decLe _ _

instance (f : Int) : IsTotal AttRecord (ascRecLE f) :=
  ⟨fun _ _ => Int.le_total _ _⟩

instance (f : Int) : IsTrans AttRecord (ascRecLE f) :=
  ⟨fun _ _ _ h1 h2 => Int.le_trans h1 h2⟩

/-- Key mirroring the SQL comparison of the stored `timestamp` TEXT column.
The program writes timestamps with `datetime.isoformat()`, a fixed-width
format on which lexicographic string order coincides with instant order, so
a well-formed string compares by its instant; a malformed string compares
by its tag (no claim depends on where malformed rows land in SQL order). -/
def dbKey : TsVal → Int
  | .ok t => t
  | .bad tag => tag

/-- The `ORDER BY timestamp DESC` comparison of
`DatabaseManager.get_attendance` (server.py:333). -/
def descRecByTs (a b : AttRecord) : Prop :=
  dbKey b.ts ≤ dbKey a.ts

instance : DecidableRel descRecByTs :=
  fun a b => Int.decLe _ _

instance : IsTotal AttRecord descRecByTs :=
  ⟨fun _ _ => Int.le_total _ _⟩

instance : IsTrans AttRecord descRecByTs :=
  ⟨fun _ _ _ h1 h2 => Int.le_trans h2 h1⟩

/-- Embeds the flat-log branch of `_load_attendance_history`
(server.py:523-541): read every CSV data row (header already stripped) and
sort ascending by `_parse_timestamp`. Malformed rows are kept, with the
current time substituted as their sort key; Python's sort is stable, as is
insertion sort. -/
def loadAttendanceHistory (fallbackNow : Int) (fileRows : List AttRecord) : List AttRecord :=
  List.insertionSort (ascRecLE fallbackNow) fileRows

/-- Embeds `DatabaseManager.get_attendance` (server.py:321-347):
`SELECT name, timestamp FROM attendance ORDER BY timestamp DESC`, with the
`LIMIT` appended to the SQL query when `limit` is truthy (Python's
`if limit:` treats `0` and `None` alike as no limit). -/
def dbGetAttendance (rows : List AttRecord) (limit : Option Nat) : List AttRecord :=
  let sorted := List.insertionSort descRecByTs rows
  match limit with
  | none => sorted
  | some k => if k = 0 then sorted else sorted.take k

/-- Embeds the database branch of `_load_attendance_history`
(server.py:536-540): fetch all rows through `get_attendance` and re-sort
them ascending by `_parse_timestamp`. -/
def loadAttendanceHistoryDb (fallbackNow : Int) (rows : List AttRecord) : List AttRecord :=
  List.insertionSort (ascRecLE fallbackNow) (dbGetAttendance rows none)

/-- Embeds the per-record formatting loop of `get_attendance_data`
(server.py:922-946): each record's timestamp goes through
`datetime.fromisoformat` inside a try; a malformed record raises, is logged
with a warning and skipped, and the loop continues with the next record. -/
def formatRecords (records : List AttRecord) : List AttRecord :=
  records.filter fun r =>
    match r.ts with
    | .ok _ => true
    | .bad _ => false

/-- Embeds `get_attendance_data` (server.py:904-957) in local-storage mode:
reload and sort the flat log, format it (skipping malformed rows), then
apply a truthy `limit` to the formatted list (server.py:950-951). -/
def getAttendanceDataLocal (fileRows : List AttRecord) (fallbackNow : Int)
    (limit : Option Nat) : List AttRecord :=
  let fmt := formatRecords (loadAttendanceHistory fallbackNow fileRows)
  match limit with
  | none => fmt
  | some k => if k = 0 then fmt else fmt.take k

/-- Embeds `get_attendance_data` in database mode: rows come from
`get_attendance` (descending, with the limit already applied natively) and
are then formatted, skipping malformed rows. -/
def getAttendanceDataDb (rows : List AttRecord) (limit : Option Nat) : List AttRecord :=
  formatRecords (dbGetAttendance rows limit)

/-- The two gate timing settings: `confirmation_seconds` and
`attendance_cooldown_seconds` (server.py:414-415). -/
structure GateConfig where
  confirmationSeconds : Int
  cooldownSeconds : Int
deriving DecidableEq, Repr

/-- Values of the single-slot `last_event` mailbox (server.py:799,815). -/
inductive GateEvent where
  | cooldown (name : String) (remaining : Int)
  | success (name : String) (ts : Int)
deriving DecidableEq, Repr

/-- Observable outcome of one `_handle_attendance_candidate` call, matching
the spec's Action type: `blocked` emits the cooldown event, `committed`
emits the success event, and `created` / `waiting` emit nothing and write
nothing (the spec's None). -/
inductive GateAction where
  | blocked (remaining : Int)
  | created
  | waiting
  | committed (ts : Int)
deriving DecidableEq, Repr

/-- The server state touched by the attendance gate: the
`pending_confirmations` and `last_attendance` dicts, the in-memory (and,
when the append succeeds, persisted) `attendance_log`, the `last_event`
slot and the camera flag `is_running`. -/
structure ServerState where
  pending : String → Option Int
  lastAttendance : String → Option Int
  ledger : List AttRecord
  lastEvent : Option GateEvent
  isRunning : Bool

/-- The part of `_handle_attendance_candidate` after the cooldown guard
(server.py:803-816), together with `_log_attendance` (server.py:818-848).
A first sighting only creates the pending entry. Once the dwell reaches
`confirmation_seconds`, the record is appended; `appendOk` says whether
that append (CSV write or `save_attendance`) succeeds. `_log_attendance`
catches its own failures and merely logs them, so even on a failed append
the caller still sets `last_attendance[name] = now`, deletes the pending
entry, stores a success event and stops the camera; only the ledger is
left unchanged. The ISO timestamp written with the record is taken at the
same instant as `now`, and the re-sort of the log uses `now` as the parse
fallback for malformed rows. -/
def observeNoCooldown (cfg : GateConfig) (s : ServerState) (name : String)
    (now : Int) (appendOk : Bool) : ServerState × GateAction :=
  match s.pending name with
  | none =>
      ({ s with pending := fun n => if n = name then some now else s.pending n },
       .created)
  | some firstSeen =>
      if cfg.confirmationSeconds ≤ now - firstSeen then
        ({ s with
            ledger :=
              if appendOk then
                List.insertionSort (ascRecLE now) (s.ledger ++ [⟨name, .ok now⟩])
              else s.ledger,
            pending := fun n => if n = name then none else s.pending n,
            lastAttendance := fun n => if n = name then some now else s.lastAttendance n,
            lastEvent := some (.success name now),
            isRunning := false },
         .committed now)
      else (s, .waiting)

/-- Embeds `_handle_attendance_candidate` (server.py:785-816). The cooldown
guard is `if last_ts and (now - last_ts) < self.attendance_cooldown_seconds`;
Python truthiness makes a recorded timestamp of exactly `0` behave as
absent. When it fires, the cooldown event (with `remaining` seconds) is
stored and the camera stopped, and nothing else changes. -/
def observe (cfg : GateConfig) (s : ServerState) (name : String)
    (now : Int) (appendOk : Bool) : ServerState × GateAction :=
  match s.lastAttendance name with
  | some t =>
      if t ≠ 0 ∧ now - t < cfg.cooldownSeconds then
        ({ s with
            lastEvent := some (.cooldown name (cfg.cooldownSeconds - (now - t))),
            isRunning := false },
         .blocked (cfg.cooldownSeconds - (now - t)))
      else observeNoCooldown cfg s name now appendOk
  | none => observeNoCooldown cfg s name now appendOk

/-- Runs `_handle_attendance_candidate` once per recognition cycle for the
same identity at the given call times, every store append succeeding. -/
def observeMany (cfg : GateConfig) (s : ServerState) (name : String)
    (times : List Int) : ServerState :=
  times.foldl (fun st t => (observe cfg st name t true).1) s

/-- Embeds server startup in local mode: `__init__` (server.py:429-437)
creates `pending_confirmations` and `last_attendance` as empty dicts, and
`_initialize_system` then calls `_load_attendance_history`
(server.py:523-541), which fills `attendance_log` with the sorted flat-log
contents but never writes to `last_attendance`. -/
def serverInit (fileRows : List AttRecord) (fallbackNow : Int) : ServerState :=
  { pending := fun _ => none
    lastAttendance := fun _ => none
    ledger := loadAttendanceHistory fallbackNow fileRows
    lastEvent := none
    isRunning := false }

/-- States reachable from a freshly initialized state (whose
`last_attendance` dict is empty, see `serverInit`) through gate calls made
at positive clock readings: `time.time()` is strictly positive on any real
system. -/
inductive Reachable : ServerState → Prop where
  | init (s : ServerState) (h : ∀ n, s.lastAttendance n = none) : Reachable s
  | step (cfg : GateConfig) (name : String) (now : Int) (appendOk : Bool)
      (s : ServerState) (hnow : 0 < now) (hs : Reachable s) :
      Reachable (observe cfg s name now appendOk).1

/-- Embeds `_calcular_diferenca_minutos` (server.py:961-989) on clock times
given as minutes of the day: difference in minutes, adding one day when the
second time is earlier than the first (overnight shift). -/
def calcularDiferencaMinutos (h1 h2 : Nat) : Int :=
  if h2 < h1 then (h2 : Int) + 1440 - h1 else (h2 : Int) - h1

/-- Result of `_calcular_saldo_dia` (server.py:1092-1104); a `none` clock
field renders as "--:--". -/
structure SaldoDia where
  entrada : Option Nat
  almocoIda : Option Nat
  almocoVolta : Option Nat
  saida : Option Nat
  almocou : String
  horasTrabalhadasMinutos : Int
  horasPrevistasMinutos : Int
  saldoMinutos : Int
deriving DecidableEq, Repr

/-- Embeds `_calcular_saldo_dia` (server.py:1010-1104). `horas` is the
day's punch times ascending (the caller sorts each day,
server.py:1152-1154). The branches follow the punch count: with 3 punches
the lunch return is derived by adding `tempoAlmoco` to the second punch
(the `strftime` of the shifted datetime wraps at midnight, hence the
`% 1440`); with 4 or more the observed third punch is used and the exit is
the last punch. Worked minutes are clamped to `max 0` (server.py:1075), and
the expected minutes likewise (server.py:1079-1080). -/
def calcularSaldoDia (horas : List Nat)
    (entradaPadrao saidaPadrao tempoAlmoco : Nat) : SaldoDia :=
  let hp := max 0 (calcularDiferencaMinutos entradaPadrao saidaPadrao - (tempoAlmoco : Int))
  match horas with
  | [] =>
      { entrada := none, almocoIda := none, almocoVolta := none, saida := none,
        almocou := "Não", horasTrabalhadasMinutos := 0,
        horasPrevistasMinutos := hp, saldoMinutos := 0 - hp }
  | [a] =>
      { entrada := some a, almocoIda := none, almocoVolta := none, saida := some a,
        almocou := "Não", horasTrabalhadasMinutos := 0,
        horasPrevistasMinutos := hp, saldoMinutos := 0 - hp }
  | [a, b] =>
      let ht := max 0 (calcularDiferencaMinutos a b - (tempoAlmoco : Int))
      { entrada := some a, almocoIda := none, almocoVolta := none, saida := some b,
        almocou := "Não (2 batidas)", horasTrabalhadasMinutos := ht,
        horasPrevistasMinutos := hp, saldoMinutos := ht - hp }
  | [a, b, c] =>
      let volta := (b + tempoAlmoco) % 1440
      let ht := max 0 (calcularDiferencaMinutos a b + calcularDiferencaMinutos volta c)
      { entrada := some a, almocoIda := some b, almocoVolta := some volta,
        saida := some c, almocou := "Sim (3 batidas)", horasTrabalhadasMinutos := ht,
        horasPrevistasMinutos := hp, saldoMinutos := ht - hp }
  | a :: b :: c :: d :: rest =>
      let saida := (d :: rest).getLast (List.cons_ne_nil d rest)
      let ht := max 0 (calcularDiferencaMinutos a b + calcularDiferencaMinutos c saida)
      { entrada := some a, almocoIda := some b, almocoVolta := some c,
        saida := some saida, almocou := "Sim (4+ batidas)", horasTrabalhadasMinutos := ht,
        horasPrevistasMinutos := hp, saldoMinutos := ht - hp }

/-- Leap years of the proleptic Gregorian calendar used by `datetime`. -/
def isLeapB (y : Nat) : Bool :=
  y % 4 == 0 && (y % 100 != 0 || y % 400 == 0)

/-- Number of days of the month `datetime(ano, mes, ·)` accepts; `0` for a
month outside 1..12. -/
def daysInMonthN (ano mes : Nat) : Nat :=
  match mes with
  | 1 => 31
  | 2 => if isLeapB ano then 29 else 28
  | 3 => 31
  | 4 => 30
  | 5 => 31
  | 6 => 30
  | 7 => 31
  | 8 => 31
  | 9 => 30
  | 10 => 31
  | 11 => 30
  | 12 => 31
  | _ => 0

/-- Whether `datetime(ano, mes, dia)` constructs without a `ValueError`
(year range 1..9999, per `datetime.MINYEAR` / `MAXYEAR`). -/
def validDateB (ano mes dia : Nat) : Bool :=
  decide (1 ≤ ano) && decide (ano ≤ 9999) && decide (1 ≤ dia) &&
    decide (dia ≤ daysInMonthN ano mes)

/-- Embeds the day loop of `_gerar_relatorio_mensal` (server.py:1187-1191):
`for day in range(1, 32)` with a `break` at the first day for which the
`datetime` constructor raises — the designed terminator for variable month
length. -/
def diasValidos (ano mes : Nat) : List Nat :=
  (List.range' 1 31).takeWhile fun d => validDateB ano mes d

/-- One line of the monthly report (server.py:1209-1221), reduced to the
day number and its balance data. -/
structure DiaEntry where
  dia : Nat
  saldo : SaldoDia
deriving DecidableEq, Repr

/-- Result of `_gerar_relatorio_mensal` (server.py:1228-1243). -/
structure RelatorioMensal where
  nome : String
  mes : Nat
  ano : Nat
  dias : List DiaEntry
  totalTrabalhadasMinutos : Int
  totalPrevistasMinutos : Int
  saldoFinalMinutos : Int
deriving DecidableEq, Repr

/-- Embeds `_gerar_relatorio_mensal` (server.py:1163-1243). `regs d` is the
day's punch list from `attendance_by_day` (the dict lookup defaults to the
empty list when the day has no punches), already sorted by
`gerar_relatorio_clt`. Every valid day of the month gets one entry, with
`_calcular_saldo_dia` applied to its punches. -/
def relatorioMensal (nome : String) (mes ano : Nat) (regs : Nat → List Nat)
    (entradaPadrao saidaPadrao tempoAlmoco : Nat) : RelatorioMensal :=
  let dias := (diasValidos ano mes).map fun d =>
    { dia := d, saldo := calcularSaldoDia (regs d) entradaPadrao saidaPadrao tempoAlmoco }
  let tT := (dias.map fun e => e.saldo.horasTrabalhadasMinutos).sum
  let tP := (dias.map fun e => e.saldo.horasPrevistasMinutos).sum
  { nome := nome, mes := mes, ano := ano, dias := dias,
    totalTrabalhadasMinutos := tT, totalPrevistasMinutos := tP,
    saldoFinalMinutos := tT - tP }

/-- One punch as processed by `gerar_relatorio_clt` (server.py:1126-1139):
the local calendar date plus the clock time in minutes of the day. -/
structure PunchRec where
  ano : Nat
  mes : Nat
  dia : Nat
  hora : Nat
deriving DecidableEq, Repr

/-- Day grouping used by the report paths (server.py:1144-1154 and
1259-1268): the punches of one calendar day of one month, sorted
ascending. -/
def regsDoMes (ano mes : Nat) (recs : List PunchRec) : Nat → List Nat :=
  fun d =>
    List.insertionSort (fun a b => a ≤ b)
      ((recs.filter fun r => r.ano == ano && r.mes == mes && r.dia == d).map
        fun r => r.hora)

/-- The months of the requested year that have at least one punch, in
ascending order — `sorted(attendance_by_month_and_day.keys())`
(server.py:1271). -/
def mesesComRegistro (ano : Nat) (recs : List PunchRec) : List Nat :=
  List.insertionSort (fun a b => a ≤ b)
    (((recs.filter fun r => r.ano == ano).map fun r => r.mes).dedup)

/-- Embeds `_gerar_relatorio_anual` (server.py:1245-1280): one full monthly
report per month of the year that has at least one punch; the other months
get no entry at all. The `meses` dict is modelled as an association list in
ascending key order. -/
def relatorioAnual (nome : String) (ano : Nat) (recs : List PunchRec)
    (entradaPadrao saidaPadrao tempoAlmoco : Nat) : List (Nat × RelatorioMensal) :=
  (mesesComRegistro ano recs).map fun m =>
    (m, relatorioMensal nome m ano (regsDoMes ano m recs) entradaPadrao saidaPadrao tempoAlmoco)

/-- A fresh example state: empty dicts, empty ledger, camera running. -/
def exS0 : ServerState :=
  { pending := fun _ => none
    lastAttendance := fun _ => none
    ledger := []
    lastEvent := none
    isRunning := true }

/-- Example timing configuration: 3 s confirmation, 60 s cooldown. -/
def exCfg : GateConfig :=
  { confirmationSeconds := 3, cooldownSeconds := 60 }

/-- Example state after a first sighting of "X" at `t = 5` and a commit for
"X" at `t = 9` under `exCfg`. -/
def exS2 : ServerState :=
  (observe exCfg (observe exCfg exS0 "X" 5 true).1 "X" 9 true).1

/-- Example state holding a pending confirmation for "X" begun at `t = 0`,
with no prior commit. -/
def exPend : ServerState :=
  { exS0 with pending := fun n => if n = "X" then some 0 else none }

/-- On a first sighting (no pending entry), once past the cooldown guard,
the gate only creates the pending entry. -/
theorem observe_creates_pending (cfg : GateConfig) (s : ServerState) (name : String)
    (now : Int) (appendOk : Bool)
    (hcd : ∀ t, s.lastAttendance name = some t → t = 0 ∨ cfg.cooldownSeconds ≤ now - t)
    (hp : s.pending name = none) :
    observe cfg s name now appendOk =
      ({ s with pending := fun n => if n = name then some now else s.pending n },
       .created) := by
  rcases h : s.lastAttendance name with _ | t
  · simp only [observe, h, observeNoCooldown, hp]
  · have := hcd t h
    simp only [observe, h, observeNoCooldown, hp]
    rw [if_neg (by omega)]

/-- While the dwell time is still short of `confirmation_seconds`, the gate
leaves the state untouched and emits nothing. -/
theorem observe_waits (cfg : GateConfig) (s : ServerState) (name : String)
    (now firstSeen : Int) (appendOk : Bool)
    (hl : s.lastAttendance name = none)
    (hp : s.pending name = some firstSeen)
    (hlt : now - firstSeen < cfg.confirmationSeconds) :
    observe cfg s name now appendOk = (s, .waiting) := by
  simp only [observe, hl, observeNoCooldown, hp]
  rw [if_neg (by omega)]

/-- Once the dwell reaches `confirmation_seconds` (no prior commit for the
name), the gate commits: pending entry dropped, `last_attendance` set to
`now`, success event stored, camera stopped, and the record appended
exactly when the store append succeeds. -/
theorem observe_commits (cfg : GateConfig) (s : ServerState) (name : String)
    (now firstSeen : Int) (appendOk : Bool)
    (hl : s.lastAttendance name = none)
    (hp : s.pending name = some firstSeen)
    (hge : cfg.confirmationSeconds ≤ now - firstSeen) :
    observe cfg s name now appendOk =
      ({ s with
          ledger :=
            if appendOk then
              List.insertionSort (ascRecLE now) (s.ledger ++ [⟨name, .ok now⟩])
            else s.ledger,
          pending := fun n => if n = name then none else s.pending n,
          lastAttendance := fun n => if n = name then some now else s.lastAttendance n,
          lastEvent := some (.success name now),
          isRunning := false },
       .committed now) := by
  simp only [observe, hl, observeNoCooldown, hp]
  rw [if_pos hge]

/-- One gate call either leaves an identity's `last_attendance` entry alone
or sets it to the call time `now`. -/
theorem observe_lastAttendance_cases (cfg : GateConfig) (s : ServerState)
    (name : String) (now : Int) (appendOk : Bool) (n : String) :
    (observe cfg s name now appendOk).1.lastAttendance n = s.lastAttendance n ∨
    (observe cfg s name now appendOk).1.lastAttendance n = some now := by
  unfold observe observeNoCooldown
  rcases h : s.lastAttendance name with _ | t <;>
    rcases hp : s.pending name with _ | f <;>
    simp only [h, hp] <;>
    repeat' split
  all_goals try (left; rfl)
  all_goals by_cases hn : n = name
  all_goals simp [hn]

/-- In every state reachable from startup through calls at positive clock
readings, every recorded `last_attendance` value is positive. -/
theorem reachable_lastAttendance_pos {s : ServerState} (hs : Reachable s) :
    ∀ n t, s.lastAttendance n = some t → 0 < t := by
  induction hs with
  | init s h =>
      intro n t ht
      rw [h n] at ht
      exact absurd ht (by simp)
  | step cfg name now appendOk s hnow hs ih =>
      intro n t ht
      rcases observe_lastAttendance_cases cfg s name now appendOk n with hc | hc
      · exact ih n t (hc.symm.trans ht)
      · have h2 := hc.symm.trans ht
        injection h2 with h2
        omega

/-- C1: in any reachable state, an identity `X` with a recorded last commit
at time `t0` that calls the gate at a time `now` with `now - t0` below the
cooldown gets `CooldownBlocked` with the remaining seconds, with no state
change beyond the stored cooldown event and the stopped camera (in
particular no attendance record is written); and, in any reachable state, a
commit for `X` happens only when no prior commit is recorded for `X` or the
recorded one is at least `cooldownSeconds` old. -/
theorem cooldown_blocks_within_window (cfg : GateConfig) (s : ServerState)
    (X : String) (t0 now : Int) (appendOk : Bool)
    (hs : Reachable s)
    (hlc : s.lastAttendance X = some t0)
    (hΔ : now - t0 < cfg.cooldownSeconds) :
    (observe cfg s X now appendOk =
      ({ s with
          lastEvent := some (.cooldown X (cfg.cooldownSeconds - (now - t0))),
          isRunning := false },
       .blocked (cfg.cooldownSeconds - (now - t0)))
      ∧ (observe cfg s X now appendOk).1.ledger = s.ledger)
    ∧ ∀ (s' : ServerState) (now' : Int) (ok' : Bool) (ts : Int),
        Reachable s' →
        (observe cfg s' X now' ok').2 = .committed ts →
        s'.lastAttendance X = none ∨
          ∃ t1, s'.lastAttendance X = some t1 ∧ cfg.cooldownSeconds ≤ now' - t1 := by
  constructor
  · have ht0 : 0 < t0 := reachable_lastAttendance_pos hs X t0 hlc
    have heq : observe cfg s X now appendOk =
        ({ s with
            lastEvent := some (.cooldown X (cfg.cooldownSeconds - (now - t0))),
            isRunning := false },
         .blocked (cfg.cooldownSeconds - (now - t0))) := by
      simp only [observe, hlc]
      rw [if_pos ⟨by omega, hΔ⟩]
    exact ⟨heq, by rw [heq]⟩
  · intro s' now' ok' ts hs' hcomm
    rcases h : s'.lastAttendance X with _ | t1
    · exact Or.inl rfl
    · right
      refine ⟨t1, rfl, ?_⟩
      by_contra hlt
      push_neg at hlt
      have ht1 : 0 < t1 := reachable_lastAttendance_pos hs' X t1 h
      have hblk : (observe cfg s' X now' ok').2 =
          .blocked (cfg.cooldownSeconds - (now' - t1)) := by
        simp only [observe, h]
        rw [if_pos ⟨by omega, hlt⟩]
      rw [hblk] at hcomm
      exact absurd hcomm (by simp)

/-- Witness for C1: from a fresh state, "X" is sighted at `t = 5` and
commits at `t = 9` (dwell 4 s ≥ 3 s); a call at `t = 30`, i.e. 21 s into
the 60 s cooldown, is blocked with 39 s remaining and writes nothing. -/
theorem cooldown_blocks_within_window_witness :
    (observe exCfg exS2 "X" 30 true).2 = GateAction.blocked 39 ∧
    (observe exCfg exS2 "X" 30 true).1.ledger = exS2.ledger := by
  have hreach : Reachable exS2 :=
    Reachable.step exCfg "X" 9 true _ (by omega)
      (Reachable.step exCfg "X" 5 true exS0 (by omega)
        (Reachable.init exS0 fun n => rfl))
  have h := cooldown_blocks_within_window exCfg exS2 "X" 9 30 true hreach
    (by decide) (by decide)
  exact ⟨by rw [h.1.1]; decide, h.1.2⟩

/-- C10: a gate call that creates the pending entry for an identity (none
existed, and the cooldown guard does not fire) never writes an attendance
record on that same call, whatever `confirmationSeconds` is: it only
records `first_seen = now` and leaves everything else — ledger included —
unchanged. -/
theorem creating_call_never_commits (cfg : GateConfig) (s : ServerState)
    (X : String) (now : Int) (appendOk : Bool)
    (hcd : ∀ t, s.lastAttendance X = some t → t = 0 ∨ cfg.cooldownSeconds ≤ now - t)
    (hp : s.pending X = none) :
    observe cfg s X now appendOk =
      ({ s with pending := fun n => if n = X then some now else s.pending n },
       .created)
    ∧ (observe cfg s X now appendOk).1.ledger = s.ledger
    ∧ (observe cfg s X now appendOk).1.pending X = some now := by
  have heq := observe_creates_pending cfg s X now appendOk hcd hp
  refine ⟨heq, by rw [heq], by rw [heq]; simp⟩

/-- Witness for C10: with `confirmationSeconds = 0` — the extreme case —
the first sighting of "X" on a fresh state still only creates the pending
entry and appends nothing. -/
theorem creating_call_never_commits_witness :
    (observe ⟨0, 60⟩ exS0 "X" 5 true).2 = GateAction.created ∧
    (observe ⟨0, 60⟩ exS0 "X" 5 true).1.ledger = exS0.ledger ∧
    (observe ⟨0, 60⟩ exS0 "X" 5 true).1.pending "X" = some 5 := by
  have h := creating_call_never_commits ⟨0, 60⟩ exS0 "X" 5 true
    (fun t ht => Option.noConfusion ht) rfl
  exact ⟨by rw [h.1], h.2.1, h.2.2⟩

/-- C4: with no prior commit for `X` and no purge, the run that first sees
`X` at `t0` (which creates the pending entry and emits nothing), then calls
at any times `pre` whose elapsed dwell is below `confirmationSeconds`
(every one leaves the state untouched and emits nothing), commits exactly
at the first call `tC` whose elapsed dwell reaches `confirmationSeconds`,
appending the record; this includes `confirmationSeconds = 0` (commit on
the second call) and a call at elapsed time exactly `confirmationSeconds`. -/
theorem dwell_commits_at_threshold (cfg : GateConfig) (s0 : ServerState)
    (X : String) (t0 : Int) (pre : List Int) (tC : Int)
    (hp : s0.pending X = none)
    (hl : s0.lastAttendance X = none)
    (hpre : ∀ t ∈ pre, t - t0 < cfg.confirmationSeconds)
    (hC : cfg.confirmationSeconds ≤ tC - t0) :
    (observe cfg s0 X t0 true).2 = .created
    ∧ observeMany cfg (observe cfg s0 X t0 true).1 X pre = (observe cfg s0 X t0 true).1
    ∧ (∀ t ∈ pre, (observe cfg (observe cfg s0 X t0 true).1 X t true).2 = .waiting)
    ∧ (observe cfg (observeMany cfg (observe cfg s0 X t0 true).1 X pre) X tC true).2
        = .committed tC
    ∧ (observe cfg (observeMany cfg (observe cfg s0 X t0 true).1 X pre) X tC true).1.ledger
        = List.insertionSort (ascRecLE tC) (s0.ledger ++ [⟨X, .ok tC⟩]) := by
  have hcd : ∀ t, s0.lastAttendance X = some t → t = 0 ∨ cfg.cooldownSeconds ≤ t0 - t :=
    fun t ht => absurd (hl.symm.trans ht) (by simp)
  have h0 := observe_creates_pending cfg s0 X t0 true hcd hp
  have h1p : (observe cfg s0 X t0 true).1.pending X = some t0 := by rw [h0]; simp
  have h1l : (observe cfg s0 X t0 true).1.lastAttendance X = none := by rw [h0]; exact hl
  have h1g : (observe cfg s0 X t0 true).1.ledger = s0.ledger := by rw [h0]
  have hstay : ∀ (ts : List Int), (∀ t ∈ ts, t - t0 < cfg.confirmationSeconds) →
      observeMany cfg (observe cfg s0 X t0 true).1 X ts = (observe cfg s0 X t0 true).1 := by
    intro ts
    induction ts with
    | nil => intro _; rfl
    | cons t rest ih =>
        intro hall
        have hw := observe_waits cfg (observe cfg s0 X t0 true).1 X t t0 true h1l h1p
          (hall t (by simp))
        show List.foldl _ _ (t :: rest) = _
        rw [List.foldl_cons, hw]
        exact ih fun u hu => hall u (by simp [hu])
  have hmany := hstay pre hpre
  have hcommit := observe_commits cfg (observe cfg s0 X t0 true).1 X tC t0 true h1l h1p hC
  refine ⟨by rw [h0], hmany, ?_, ?_, ?_⟩
  · intro t ht
    rw [observe_waits cfg (observe cfg s0 X t0 true).1 X t t0 true h1l h1p (hpre t ht)]
  · rw [hmany, hcommit]
  · rw [hmany, hcommit]
    simp [h1g]

/-- Witness for C4: under 3 s confirmation, a first sighting of "X" at
`t = 5` followed by calls at `t = 6` and `t = 7` (dwell 1 s and 2 s) does
not commit, and the call at `t = 8` — dwell exactly 3 s — commits; under
0 s confirmation the second call (`t = 5` again, dwell 0) already commits. -/
theorem dwell_commits_at_threshold_witness :
    (observe exCfg (observeMany exCfg (observe exCfg exS0 "X" 5 true).1 "X" [6, 7]) "X" 8 true).2
      = GateAction.committed 8
    ∧ (observe ⟨0, 60⟩ (observeMany ⟨0, 60⟩ (observe ⟨0, 60⟩ exS0 "X" 5 true).1 "X" []) "X" 5 true).2
      = GateAction.committed 5 := by
  refine ⟨?_, ?_⟩
  · exact (dwell_commits_at_threshold exCfg exS0 "X" 5 [6, 7] 8 rfl rfl
      (by decide) (by decide)).2.2.2.1
  · exact (dwell_commits_at_threshold ⟨0, 60⟩ exS0 "X" 5 [] 5 rfl rfl
      (by intro t ht; exact absurd ht (by simp)) (by decide)).2.2.2.1

/-- C2 (amended): when the confirmation window has elapsed and the store
append fails, the ledger alone is left unchanged; the gate nevertheless
removes the pending entry, sets `last_attendance[X] = now` (so a cooldown
starts), stores a success event and stops the camera — the failure is only
logged inside `_log_attendance`, never surfaced to the caller. -/
theorem failed_append_still_advances_gate (cfg : GateConfig) (s : ServerState)
    (X : String) (firstSeen now : Int)
    (hl : s.lastAttendance X = none)
    (hp : s.pending X = some firstSeen)
    (hge : cfg.confirmationSeconds ≤ now - firstSeen) :
    (observe cfg s X now false).1.ledger = s.ledger
    ∧ (observe cfg s X now false).1.pending X = none
    ∧ (observe cfg s X now false).1.lastAttendance X = some now
    ∧ (observe cfg s X now false).1.lastEvent = some (.success X now)
    ∧ (observe cfg s X now false).1.isRunning = false
    ∧ (observe cfg s X now false).2 = .committed now := by
  have h := observe_commits cfg s X now firstSeen false hl hp hge
  rw [h]
  refine ⟨by simp, by simp, by simp, rfl, rfl, rfl⟩

/-- Witness for C2 (amended): "X" has been pending since `t = 0` with no
prior commit; at `t = 5` (dwell 5 s ≥ 3 s) the append fails, yet the
pending entry is gone, `last_attendance` is set, and a success event is
stored while the ledger stays empty. -/
theorem failed_append_still_advances_gate_witness :
    (observe exCfg exPend "X" 5 false).1.ledger = exPend.ledger
    ∧ (observe exCfg exPend "X" 5 false).1.pending "X" = none
    ∧ (observe exCfg exPend "X" 5 false).1.lastAttendance "X" = some 5
    ∧ (observe exCfg exPend "X" 5 false).1.lastEvent = some (.success "X" 5)
    ∧ (observe exCfg exPend "X" 5 false).1.isRunning = false
    ∧ (observe exCfg exPend "X" 5 false).2 = GateAction.committed 5 :=
  failed_append_still_advances_gate exCfg exPend "X" 0 5 rfl (by decide) (by decide)

/-- Counterexample to C2 as stated: in the concrete state `exPend` (pending
entry for "X" since `t = 0`, empty ledger, no prior commit), a commit
attempt at `t = 5` whose append fails does NOT leave the gate state
unchanged and does NOT surface an error: the pending entry is deleted,
`last_attendance["X"]` is set to 5, and the stored event is a success —
while no record was written. -/
theorem failed_append_counterexample :
    (observe exCfg exPend "X" 5 false).1.ledger = []
    ∧ (observe exCfg exPend "X" 5 false).1.pending "X" = none
    ∧ (observe exCfg exPend "X" 5 false).1.pending "X" ≠ exPend.pending "X"
    ∧ (observe exCfg exPend "X" 5 false).1.lastAttendance "X" = some 5
    ∧ (observe exCfg exPend "X" 5 false).1.lastAttendance "X" ≠ exPend.lastAttendance "X"
    ∧ (observe exCfg exPend "X" 5 false).1.lastEvent = some (.success "X" 5) := by
  refine ⟨by decide, by decide, by decide, by decide, by decide, by decide⟩

/-- C5 (amended): at startup the attendance history is loaded and sorted
into `attendance_log`, but the `last_attendance` map is created empty and
nothing reconstructs it from the ledger, whatever the persisted records
are; the cooldown therefore has no effect on commits made before a
restart. -/
theorem startup_lastCommit_not_reconstructed (fileRows : List AttRecord)
    (fallbackNow : Int) (n : String) :
    (serverInit fileRows fallbackNow).lastAttendance n = none
    ∧ (serverInit fileRows fallbackNow).pending n = none
    ∧ (serverInit fileRows fallbackNow).ledger = loadAttendanceHistory fallbackNow fileRows :=
  ⟨rfl, rfl, rfl⟩

/-- Counterexample to C5 as stated: a persisted ledger holding one record
for "X" at instant 100 is loaded into `attendance_log` at startup, yet
`lastCommit("X")` is absent instead of being 100. -/
theorem startup_lastCommit_counterexample :
    (serverInit [⟨"X", .ok 100⟩] 0).ledger = [⟨"X", .ok 100⟩]
    ∧ (serverInit [⟨"X", .ok 100⟩] 0).lastAttendance "X" = none
    ∧ (serverInit [⟨"X", .ok 100⟩] 0).lastAttendance "X" ≠ some 100 := by
  refine ⟨by decide, rfl, by decide⟩

/-- C3: for a day with exactly three punches `[a, b, c]`, the balance takes
entry `a`, lunch-out `b` and exit `c`, derives the lunch return as
`b + tempoAlmoco` (as a clock time, so modulo 24 h) instead of using an
observed punch, computes the worked minutes as the clamped sum of the two
intervals, and on the concrete P6 instance 09:00 / 12:00 / 17:30 with 60
lunch minutes and the 09:00–18:00 schedule yields lunch-in 13:00, worked
450, expected 480 and balance −30. -/
theorem three_punch_balance (a b c entradaPadrao saidaPadrao tempoAlmoco : Nat) :
    (calcularSaldoDia [a, b, c] entradaPadrao saidaPadrao tempoAlmoco).entrada = some a
    ∧ (calcularSaldoDia [a, b, c] entradaPadrao saidaPadrao tempoAlmoco).almocoIda = some b
    ∧ (calcularSaldoDia [a, b, c] entradaPadrao saidaPadrao tempoAlmoco).saida = some c
    ∧ (calcularSaldoDia [a, b, c] entradaPadrao saidaPadrao tempoAlmoco).almocoVolta
        = some ((b + tempoAlmoco) % 1440)
    ∧ (calcularSaldoDia [a, b, c] entradaPadrao saidaPadrao tempoAlmoco).horasTrabalhadasMinutos
        = max 0 (calcularDiferencaMinutos a b
            + calcularDiferencaMinutos ((b + tempoAlmoco) % 1440) c)
    ∧ 0 ≤ (calcularSaldoDia [a, b, c] entradaPadrao saidaPadrao tempoAlmoco).horasTrabalhadasMinutos
    ∧ (calcularSaldoDia [a, b, c] entradaPadrao saidaPadrao tempoAlmoco).horasPrevistasMinutos
        = max 0 (calcularDiferencaMinutos entradaPadrao saidaPadrao - (tempoAlmoco : Int))
    ∧ (calcularSaldoDia [a, b, c] entradaPadrao saidaPadrao tempoAlmoco).saldoMinutos
        = (calcularSaldoDia [a, b, c] entradaPadrao saidaPadrao tempoAlmoco).horasTrabalhadasMinutos
          - (calcularSaldoDia [a, b, c] entradaPadrao saidaPadrao tempoAlmoco).horasPrevistasMinutos
    ∧ (calcularSaldoDia [540, 720, 1050] 540 1080 60).almocoVolta = some 780
    ∧ (calcularSaldoDia [540, 720, 1050] 540 1080 60).horasTrabalhadasMinutos = 450
    ∧ (calcularSaldoDia [540, 720, 1050] 540 1080 60).horasPrevistasMinutos = 480
    ∧ (calcularSaldoDia [540, 720, 1050] 540 1080 60).saldoMinutos = -30 :=
  ⟨rfl, rfl, rfl, rfl, rfl, le_max_left 0 _, rfl, rfl,
   by decide, by decide, by decide, by decide⟩

/-- C6 (amended): the flat-log read path returns the rows sorted ascending
by parsed instant (a permutation of the stored rows), and a truthy limit on
the local formatted query cuts the list only after sorting and formatting;
the relational `get_attendance`, by contrast, returns its rows sorted
DESCENDING by the stored timestamp string with the limit pushed to SQL, and
ascending order for the database backend is only restored by
`_load_attendance_history` re-sorting what `get_attendance` returned. -/
theorem ledger_query_ordering (fileRows rows : List AttRecord)
    (fallbackNow : Int) (k : Nat) (hk : k ≠ 0) :
    List.Sorted (ascRecLE fallbackNow) (loadAttendanceHistory fallbackNow fileRows)
    ∧ (loadAttendanceHistory fallbackNow fileRows).Perm fileRows
    ∧ getAttendanceDataLocal fileRows fallbackNow (some k)
        = (getAttendanceDataLocal fileRows fallbackNow none).take k
    ∧ List.Sorted descRecByTs (dbGetAttendance rows none)
    ∧ (dbGetAttendance rows none).Perm rows
    ∧ dbGetAttendance rows (some k) = (dbGetAttendance rows none).take k
    ∧ List.Sorted (ascRecLE fallbackNow) (loadAttendanceHistoryDb fallbackNow rows)
    ∧ (loadAttendanceHistoryDb fallbackNow rows).Perm rows := by
  refine ⟨List.sorted_insertionSort _ _, List.perm_insertionSort _ _, ?_, ?_, ?_, ?_, ?_, ?_⟩
  · simp only [getAttendanceDataLocal, if_neg hk]
  · exact List.sorted_insertionSort _ _
  · exact List.perm_insertionSort _ _
  · simp only [dbGetAttendance, if_neg hk]
  · exact List.sorted_insertionSort _ _
  · exact (List.perm_insertionSort _ _).trans (List.perm_insertionSort _ _)

/-- Witness for C6 (amended): two well-formed rows with instants 1 and 2,
inserted in that order, come back ascending from the flat-log path and
descending from `get_attendance`; a limit of 1 on the local path keeps the
earliest (post-sort) row. -/
theorem ledger_query_ordering_witness :
    List.Sorted (ascRecLE 0) (loadAttendanceHistory 0 [⟨"A", .ok 2⟩, ⟨"B", .ok 1⟩])
    ∧ (loadAttendanceHistory 0 [⟨"A", .ok 2⟩, ⟨"B", .ok 1⟩]).Perm
        [⟨"A", .ok 2⟩, ⟨"B", .ok 1⟩]
    ∧ getAttendanceDataLocal [⟨"A", .ok 2⟩, ⟨"B", .ok 1⟩] 0 (some 1)
        = (getAttendanceDataLocal [⟨"A", .ok 2⟩, ⟨"B", .ok 1⟩] 0 none).take 1
    ∧ List.Sorted descRecByTs (dbGetAttendance [⟨"A", .ok 2⟩, ⟨"B", .ok 1⟩] none)
    ∧ (dbGetAttendance [⟨"A", .ok 2⟩, ⟨"B", .ok 1⟩] none).Perm
        [⟨"A", .ok 2⟩, ⟨"B", .ok 1⟩]
    ∧ dbGetAttendance [⟨"A", .ok 2⟩, ⟨"B", .ok 1⟩] (some 1)
        = (dbGetAttendance [⟨"A", .ok 2⟩, ⟨"B", .ok 1⟩] none).take 1
    ∧ List.Sorted (ascRecLE 0) (loadAttendanceHistoryDb 0 [⟨"A", .ok 2⟩, ⟨"B", .ok 1⟩])
    ∧ (loadAttendanceHistoryDb 0 [⟨"A", .ok 2⟩, ⟨"B", .ok 1⟩]).Perm
        [⟨"A", .ok 2⟩, ⟨"B", .ok 1⟩] :=
  ledger_query_ordering [⟨"A", .ok 2⟩, ⟨"B", .ok 1⟩] [⟨"A", .ok 2⟩, ⟨"B", .ok 1⟩] 0 1
    (by decide)

/-- Counterexample to C6 as stated: two records appended with instants 1
then 2 come back from the relational `get_attendance` as `[2, 1]` —
descending, not ascending by parsed instant. -/
theorem db_query_descending_counterexample :
    dbGetAttendance [⟨"A", .ok 1⟩, ⟨"B", .ok 2⟩] none = [⟨"B", .ok 2⟩, ⟨"A", .ok 1⟩]
    ∧ ¬ List.Sorted (ascRecLE 0) (dbGetAttendance [⟨"A", .ok 1⟩, ⟨"B", .ok 2⟩] none) := by
  refine ⟨by decide, by decide⟩

/-- C9 (amended): the formatted read path `get_attendance_data` excludes
every malformed-timestamp record — for both backends, with or without a
limit — and keeps, in order, exactly the records whose timestamps parse;
the raw load paths instead INCLUDE malformed rows: `_load_attendance_history`
keeps every stored row (with the current time substituted as the sort key by
`_parse_timestamp`) and the relational `get_attendance` returns every row
unparsed. -/
theorem malformed_rows_handling (fileRows rows : List AttRecord)
    (fallbackNow : Int) (limit : Option Nat) :
    (∀ r ∈ getAttendanceDataLocal fileRows fallbackNow limit, ∃ t, r.ts = .ok t)
    ∧ (∀ r ∈ getAttendanceDataDb rows limit, ∃ t, r.ts = .ok t)
    ∧ (∀ r ∈ loadAttendanceHistory fallbackNow fileRows,
        (∃ t, r.ts = .ok t) → r ∈ getAttendanceDataLocal fileRows fallbackNow none)
    ∧ (∀ r ∈ fileRows, r ∈ loadAttendanceHistory fallbackNow fileRows)
    ∧ (∀ r ∈ rows, r ∈ dbGetAttendance rows none)
    ∧ (∀ tag : Int, parseTimestamp fallbackNow (.bad tag) = fallbackNow) := by
  have hfmt : ∀ (l : List AttRecord), ∀ r ∈ formatRecords l, ∃ t, r.ts = .ok t := by
    intro l r hr
    rcases List.mem_filter.mp hr with ⟨-, hok⟩
    rcases h : r.ts with t | tag
    · exact ⟨t, rfl⟩
    · rw [h] at hok
      exact absurd hok (by simp)
  refine ⟨?_, ?_, ?_, ?_, ?_, fun _ => rfl⟩
  · intro r hr
    refine hfmt (loadAttendanceHistory fallbackNow fileRows) r ?_
    rcases limit with _ | k
    · exact hr
    · simp only [getAttendanceDataLocal] at hr
      split at hr
      · exact hr
      · exact List.mem_of_mem_take hr
  · intro r hr
    exact hfmt (dbGetAttendance rows limit) r hr
  · intro r hr ⟨t, ht⟩
    show r ∈ formatRecords (loadAttendanceHistory fallbackNow fileRows)
    exact List.mem_filter.mpr ⟨hr, by rw [ht]⟩
  · intro r hr
    exact (List.perm_insertionSort _ _).symm.subset hr
  · intro r hr
    exact (List.perm_insertionSort _ _).symm.subset hr

/-- Counterexample to C9 as stated: a flat log holding the single malformed
row is loaded by `_load_attendance_history` with that row still present in
the result — included rather than excluded — its sort key being the
substituted current time (here 99). -/
theorem malformed_row_included_counterexample :
    loadAttendanceHistory 99 [⟨"X", .bad 0⟩] = [⟨"X", .bad 0⟩]
    ∧ (⟨"X", .bad 0⟩ : AttRecord) ∈ loadAttendanceHistory 99 [⟨"X", .bad 0⟩]
    ∧ parseTimestamp 99 (.bad 0) = 99
    ∧ dbGetAttendance [⟨"X", .bad 0⟩] none = [⟨"X", .bad 0⟩] := by
  refine ⟨by decide, by decide, rfl, by decide⟩

/-- The day loop of the monthly report enumerates exactly the days
1..daysInMonth of the requested month before the `datetime` constructor
first raises. -/
theorem diasValidos_eq (ano mes : Nat) (h1 : 1 ≤ ano) (h2 : ano ≤ 9999)
    (h3 : 1 ≤ mes) (h4 : mes ≤ 12) :
    diasValidos ano mes = List.range' 1 (daysInMonthN ano mes) := by
  have hy1 : decide (1 ≤ ano) = true := decide_eq_true h1
  have hy2 : decide (ano ≤ 9999) = true := decide_eq_true h2
  interval_cases mes <;>
    first
      | (simp only [diasValidos, validDateB, daysInMonthN, hy1, hy2]; rfl)
      | (cases hL : isLeapB ano <;>
          (simp only [diasValidos, validDateB, daysInMonthN, hy1, hy2, hL]; rfl))

/-- C7: for any valid requested month and year, the monthly report has
exactly one daily entry per valid calendar day — the entries are the days
`1..daysInMonth` in order, so a 30-day month gives 30 entries — including
days with zero punches, whose worked minutes are 0 and whose expected
minutes are the standard-schedule value; the enumeration stops at the first
invalid day-of-month by construction (`diasValidos`). -/
theorem monthly_report_complete (nome : String) (mes ano : Nat)
    (regs : Nat → List Nat) (entradaPadrao saidaPadrao tempoAlmoco : Nat)
    (h1 : 1 ≤ ano) (h2 : ano ≤ 9999) (h3 : 1 ≤ mes) (h4 : mes ≤ 12) :
    ((relatorioMensal nome mes ano regs entradaPadrao saidaPadrao tempoAlmoco).dias.map
        fun e => e.dia) = List.range' 1 (daysInMonthN ano mes)
    ∧ (relatorioMensal nome mes ano regs entradaPadrao saidaPadrao tempoAlmoco).dias.length
        = daysInMonthN ano mes
    ∧ ∀ e ∈ (relatorioMensal nome mes ano regs entradaPadrao saidaPadrao tempoAlmoco).dias,
        regs e.dia = [] →
          e.saldo.horasTrabalhadasMinutos = 0
          ∧ e.saldo.horasPrevistasMinutos
              = max 0 (calcularDiferencaMinutos entradaPadrao saidaPadrao - (tempoAlmoco : Int)) := by
  have hdv := diasValidos_eq ano mes h1 h2 h3 h4
  refine ⟨?_, ?_, ?_⟩
  · simp only [relatorioMensal, List.map_map, Function.comp]
    rw [hdv]
    exact List.map_id' _
  · simp only [relatorioMensal, List.length_map]
    rw [hdv]
    simp [List.length_range']
  · intro e he hre
    simp only [relatorioMensal, List.mem_map] at he
    obtain ⟨d, hd, rfl⟩ := he
    dsimp only at hre ⊢
    rw [hre]
    exact ⟨rfl, rfl⟩

/-- Witness for C7: November 2023 (a 30-day month) with no punches at all
gives a report of exactly 30 daily entries, and a zero-punch day under the
default 09:00–18:00 schedule with 60 lunch minutes shows worked 0 and
expected 480. -/
theorem monthly_report_complete_witness :
    (relatorioMensal "X" 11 2023 (fun _ => []) 540 1080 60).dias.length = 30
    ∧ (calcularSaldoDia [] 540 1080 60).horasTrabalhadasMinutos = 0
    ∧ (calcularSaldoDia [] 540 1080 60).horasPrevistasMinutos = 480 := by
  have h := monthly_report_complete "X" 11 2023 (fun _ => []) 540 1080 60
    (by decide) (by decide) (by decide) (by decide)
  exact ⟨h.2.1.trans (by decide), rfl, by decide⟩

/-- Membership in the sorted distinct month list of the annual report is
exactly having at least one punch in that month of the year. -/
theorem mem_mesesComRegistro (ano m : Nat) (recs : List PunchRec) :
    m ∈ mesesComRegistro ano recs ↔ ∃ r ∈ recs, r.ano = ano ∧ r.mes = m := by
  unfold mesesComRegistro
  rw [List.mem_insertionSort, List.mem_dedup, List.mem_map]
  constructor
  · rintro ⟨r, hr, rfl⟩
    rcases List.mem_filter.mp hr with ⟨hmem, hano⟩
    exact ⟨r, hmem, by simpa using hano, rfl⟩
  · rintro ⟨r, hmem, hano, rfl⟩
    exact ⟨r, List.mem_filter.mpr ⟨hmem, by simpa using hano⟩, rfl⟩

/-- A month/report pair is in the annual report exactly when the month is
listed and the report is that month's full monthly report. -/
theorem pair_mem_relatorioAnual (nome : String) (ano : Nat) (recs : List PunchRec)
    (entradaPadrao saidaPadrao tempoAlmoco : Nat) (m : Nat) (rm : RelatorioMensal) :
    (m, rm) ∈ relatorioAnual nome ano recs entradaPadrao saidaPadrao tempoAlmoco ↔
      m ∈ mesesComRegistro ano recs ∧
        rm = relatorioMensal nome m ano (regsDoMes ano m recs)
              entradaPadrao saidaPadrao tempoAlmoco := by
  unfold relatorioAnual
  rw [List.mem_map]
  constructor
  · rintro ⟨m1, hm1, heq⟩
    injection heq with ha hb
    subst ha
    exact ⟨hm1, hb.symm⟩
  · rintro ⟨hm, rfl⟩
    exact ⟨m, hm, rfl⟩

/-- C8: the annual report has an entry for a month of the requested year
exactly when that month has at least one punch — months with zero punches
are omitted entirely, not zero-filled — and every present entry is the full
monthly report of its month, computed from that month's punches. -/
theorem annual_report_omits_empty_months (nome : String) (ano : Nat)
    (recs : List PunchRec) (entradaPadrao saidaPadrao tempoAlmoco : Nat) (m : Nat) :
    ((∃ rm, (m, rm) ∈ relatorioAnual nome ano recs entradaPadrao saidaPadrao tempoAlmoco) ↔
      ∃ r ∈ recs, r.ano = ano ∧ r.mes = m)
    ∧ ∀ rm, (m, rm) ∈ relatorioAnual nome ano recs entradaPadrao saidaPadrao tempoAlmoco →
        rm = relatorioMensal nome m ano (regsDoMes ano m recs)
              entradaPadrao saidaPadrao tempoAlmoco := by
  constructor
  · constructor
    · rintro ⟨rm, hrm⟩
      exact (mem_mesesComRegistro ano m recs).mp
        ((pair_mem_relatorioAnual nome ano recs entradaPadrao saidaPadrao tempoAlmoco m rm).mp hrm).1
    · intro hex
      refine ⟨relatorioMensal nome m ano (regsDoMes ano m recs)
        entradaPadrao saidaPadrao tempoAlmoco, ?_⟩
      exact (pair_mem_relatorioAnual nome ano recs entradaPadrao saidaPadrao tempoAlmoco m _).mpr
        ⟨(mem_mesesComRegistro ano m recs).mpr hex, rfl⟩
  · intro rm hrm
    exact ((pair_mem_relatorioAnual nome ano recs entradaPadrao saidaPadrao tempoAlmoco m rm).mp hrm).2
